import Mathlib

/-!
Verification development for the russtat repository (EMISS statistical data
retrieval engine).  The definitions below are a shallow embedding of the
Python sources `rsengine.py` (dataset-list manager, SDMX-XML dataset parser,
dask-based batch orchestrator `get_many` / worker `get_one`) and `psdb.py`
(classifier-path tree builder `Russtatdb.get_classificator`).

Modelling conventions:
  * Python `float` values are embedded as `Rat`; `float(...)` literal parsing
    becomes a decimal-notation parser returning `Option Rat` (no NaN/inf,
    which never arise in the claims under study).
  * Python `datetime` values are embedded as `PDateTime`: a count of seconds
    on a linear proleptic-Gregorian scale plus a microsecond field.
    `datetime.fromisoformat`, `datetime.strptime` (for the two fixed format
    strings appearing in the source) and `str(datetime)` are implemented
    executably over that representation.
  * XML elements (`xml.etree.ElementTree`) are embedded as the `XElem` tree;
    namespace-prefixed tag lookup (`find`, `iterfind`) matches tags literally,
    the namespace map being folded into the tag strings.
  * Python exceptions are embedded with `Option` / `Except`: a `none` or
    `.error` result of a step models an exception caught by the corresponding
    `try`/`except` of the source.
-/

namespace Russtat

/-! ### Python-style string helpers

String operations are implemented over the underlying character lists (the
library's `String.trim` etc. do not reduce inside the kernel, which the
concrete witnesses below rely on). -/

/-- Strip leading and trailing whitespace from a character list. -/
def trimChars (cs : List Char) : List Char :=
  ((cs.dropWhile Char.isWhitespace).reverse.dropWhile Char.isWhitespace).reverse

/-- Python `s.strip()`. -/
def pyStrip (s : String) : String := ⟨trimChars s.data⟩

/-- Python `s.split()` (no separator): whitespace-delimited words, no
empties. -/
def wordsAux : List Char → List Char → List (List Char)
  | [], [] => []
  | [], acc => [acc.reverse]
  | c :: rest, acc =>
    if c.isWhitespace then
      match acc with
      | [] => wordsAux rest []
      | _ => acc.reverse :: wordsAux rest []
    else wordsAux rest (c :: acc)

/-- Join character-list words with single spaces. -/
def joinSpace : List (List Char) → List Char
  | [] => []
  | [w] => w
  | w :: ws => w ++ ' ' :: joinSpace ws

/-- Python `' '.join(s.split())`: collapse all whitespace runs to single
spaces and strip the ends (used for `full_name` and `methodology`). -/
def normSpace (s : String) : String :=
  ⟨joinSpace (wordsAux s.data [])⟩

/-- Split a character list on a separator character; `n` separators yield
`n + 1` parts, as Python `s.split(sep)` does. -/
def splitCharAux (sep : Char) : List Char → List Char → List (List Char)
  | [], acc => [acc.reverse]
  | c :: rest, acc =>
    if c = sep then acc.reverse :: splitCharAux sep rest []
    else splitCharAux sep rest (c :: acc)

/-- Python `s.split(sep)` for a one-character separator. -/
def pySplitOn (sep : Char) (s : String) : List String :=
  (splitCharAux sep s.data []).map String.mk

/-- `s.replace(',', '.').replace(' ', '')` — the preprocessing `_get_data`
applies to observation value text. -/
def commaDotNoSpace (s : String) : String :=
  ⟨(s.data.map (fun c => if c = ',' then '.' else c)).filter (fun c => decide (c ≠ ' '))⟩

/-- Code-point comparison of character lists (Python string `<`). -/
def charListLt : List Char → List Char → Bool
  | [], [] => false
  | [], _ :: _ => true
  | _ :: _, [] => false
  | a :: as, b :: bs => if a < b then true else if a = b then charListLt as bs else false

/-- Python string `<`. -/
def strLt (a b : String) : Bool := charListLt a.data b.data

/-- Digits of a character list as a number, `none` if empty or non-digit
characters occur. -/
def digitsVal : List Char → Option Nat
  | [] => none
  | [c] => if c.isDigit then some (c.toNat - '0'.toNat) else none
  | c :: rest =>
    if c.isDigit then
      (digitsVal rest).map (fun n => (c.toNat - '0'.toNat) * 10 ^ rest.length + n)
    else none

/-- Python `int(s)` on decimal strings: optional surrounding whitespace,
optional sign, decimal digits.  `none` models a raised `ValueError`.
(Underscore digit grouping accepted by CPython is not modelled; it does not
occur in the data under study.) -/
def pyInt (s : String) : Option Int :=
  match trimChars s.data with
  | '+' :: rest => (digitsVal rest).map (fun n => (n : Int))
  | '-' :: rest => (digitsVal rest).map (fun n => -(n : Int))
  | cs => (digitsVal cs).map (fun n => (n : Int))

/-- Split leading decimal digits from a character list. -/
def spanDigits (cs : List Char) : List Char × List Char :=
  (cs.takeWhile Char.isDigit, cs.dropWhile Char.isDigit)

/-- Value of a digit run together with its length (for fractional parts). -/
def digitsValLen (cs : List Char) : Option (Nat × Nat) :=
  (digitsVal cs).map (fun n => (n, cs.length))

/-- Python `float(s)` on finite decimal notation: optional surrounding
whitespace, optional sign, integer and/or fractional digits, optional
decimal exponent.  Returns the exact rational value; `none` models a raised
`ValueError` (e.g. on `"n/a"`).  `inf`/`nan` spellings are not modelled. -/
def pyFloat (s : String) : Option Rat :=
  let cs := trimChars s.data
  let signAndRest : Int × List Char :=
    match cs with
    | '+' :: rest => (1, rest)
    | '-' :: rest => (-1, rest)
    | _ => (1, cs)
  let sign := signAndRest.1
  let (ip, rest1) := spanDigits signAndRest.2
  let fracAndRest : Option (List Char × List Char) :=
    match rest1 with
    | '.' :: rest2 =>
      let (fp, rest3) := spanDigits rest2
      if ip.isEmpty ∧ fp.isEmpty then none else some (fp, rest3)
    | _ => if ip.isEmpty then none else some ([], rest1)
  match fracAndRest with
  | none => none
  | some (fp, rest4) =>
    let ipv := (digitsVal ip).getD 0
    let fpv := (digitsVal fp).getD 0
    let k := fp.length
    let num0 : Int := sign * ((ipv * 10 ^ k + fpv : Nat) : Int)
    let den0 : Nat := 10 ^ k
    match rest4 with
    | [] => some (mkRat num0 den0)
    | e :: rest5 =>
      if e = 'e' ∨ e = 'E' then
        let expAndDigits : Bool × List Char :=
          match rest5 with
          | '+' :: r => (false, r)
          | '-' :: r => (true, r)
          | _ => (false, rest5)
        match digitsVal expAndDigits.2, (expAndDigits.2.dropWhile Char.isDigit) with
        | some n, [] =>
          if expAndDigits.1 then some (mkRat num0 (den0 * 10 ^ n))
          else some (mkRat (num0 * ((10 ^ n : Nat) : Int)) den0)
        | _, _ => none
      else none

/-! ### Proleptic-Gregorian calendar and `datetime` embedding -/

/-- Leap-year test of the Gregorian calendar. -/
def isLeap (y : Int) : Bool := y % 4 = 0 ∧ (y % 100 ≠ 0 ∨ y % 400 = 0)

/-- Days in a month of a given year. -/
def daysInMonth (y : Int) (m : Nat) : Nat :=
  if m = 2 then (if isLeap y then 29 else 28)
  else if m = 4 ∨ m = 6 ∨ m = 9 ∨ m = 11 then 30
  else 31

/-- Days since 1970-01-01 of a civil date (Howard Hinnant's algorithm,
using truncating integer division exactly as the reference C++ code). -/
def daysFromCivil (y : Int) (m d : Nat) : Int :=
  let y' : Int := if m ≤ 2 then y - 1 else y
  let era : Int := (if 0 ≤ y' then y' else y' - 399) / 400
  let yoe : Int := y' - era * 400
  let mShift : Int := (m : Int) + (if 2 < m then -3 else 9)
  let doy : Int := (153 * mShift + 2) / 5 + (d : Int) - 1
  let doe : Int := yoe * 365 + yoe / 4 - yoe / 100 + doy
  era * 146097 + doe - 719468

/-- Civil date (year, month, day) of a day count since 1970-01-01. -/
def civilFromDays (z0 : Int) : Int × Nat × Nat :=
  let z := z0 + 719468
  let era : Int := (if 0 ≤ z then z else z - 146096) / 146097
  let doe : Int := z - era * 146097
  let yoe : Int := (doe - doe / 1460 + doe / 36524 - doe / 146096) / 365
  let y : Int := yoe + era * 400
  let doy : Int := doe - (365 * yoe + yoe / 4 - yoe / 100)
  let mp : Int := (5 * doy + 2) / 153
  let d : Int := doy - (153 * mp + 2) / 5 + 1
  let m : Int := mp + (if mp < 10 then 3 else -9)
  (y + (if m ≤ 2 then 1 else 0), m.toNat, d.toNat)

/-- Embedding of a Python `datetime`: seconds on a linear proleptic-Gregorian
scale (zero at 1970-01-01T00:00:00) plus the microsecond field. -/
structure PDateTime where
  secs : Int
  micro : Nat
deriving DecidableEq, Repr

/-- Build a `PDateTime` from civil components (no validity check). -/
def mkDT (y : Int) (m d h mi s : Nat) : PDateTime :=
  ⟨daysFromCivil y m d * 86400 + (h : Int) * 3600 + (mi : Int) * 60 + (s : Int), 0⟩

/-- `datetime(y, m, d, h, mi, s)` construction with the validity checks the
Python constructor performs; `none` models a raised `ValueError`. -/
def mkDTChecked (y : Int) (m d h mi s : Nat) : Option PDateTime :=
  if 1 ≤ y ∧ y ≤ 9999 ∧ 1 ≤ m ∧ m ≤ 12 ∧ 1 ≤ d ∧ d ≤ daysInMonth y m ∧
     h < 24 ∧ mi < 60 ∧ s < 60 then
    some (mkDT y m d h mi s)
  else none

/-- `datetime - timedelta(hours=h)`: exact subtraction on the linear scale. -/
def dtSubHours (t : PDateTime) (h : Nat) : PDateTime :=
  ⟨t.secs - (h : Int) * 3600, t.micro⟩

/-- Zero-pad a natural number to a given width (decimal). -/
def padNum (w n : Nat) : String :=
  let s := toString n
  (String.mk (List.replicate (w - s.length) '0')) ++ s

/-- `str(datetime)`: `YYYY-MM-DD HH:MM:SS` with a `.ffffff` suffix exactly
when the microsecond field is nonzero (this is what `json.dump(...,
default=str)` writes for datetime values). -/
def dtStr (t : PDateTime) : String :=
  let sod := (t.secs % 86400).toNat
  let days := (t.secs - (sod : Int)) / 86400
  let c := civilFromDays days
  let base :=
    padNum 4 c.1.toNat ++ "-" ++ padNum 2 c.2.1 ++ "-" ++ padNum 2 c.2.2 ++ " " ++
    padNum 2 (sod / 3600) ++ ":" ++ padNum 2 (sod % 3600 / 60) ++ ":" ++ padNum 2 (sod % 60)
  if t.micro = 0 then base else base ++ "." ++ padNum 6 t.micro

/-- Exactly `n` decimal digits from the front of a character list. -/
def takeNDigits (n : Nat) (cs : List Char) : Option (Nat × List Char) :=
  let ds := cs.take n
  if ds.length = n ∧ ds.all Char.isDigit then
    (digitsVal ds).map (fun v => (v, cs.drop n))
  else none

/-- One or two decimal digits from the front of a character list (greedy),
as the `strptime` directives `%d` / `%m` / `%H` / `%M` / `%S` match them. -/
def take12Digits (cs : List Char) : Option (Nat × List Char) :=
  match cs with
  | c1 :: c2 :: rest =>
    if c1.isDigit ∧ c2.isDigit then some ((c1.toNat - '0'.toNat) * 10 + (c2.toNat - '0'.toNat), rest)
    else if c1.isDigit then some (c1.toNat - '0'.toNat, c2 :: rest)
    else none
  | [c1] => if c1.isDigit then some (c1.toNat - '0'.toNat, []) else none
  | [] => none

/-- Expect a literal character at the front of a character list. -/
def expectChar (c : Char) (cs : List Char) : Option (List Char) :=
  match cs with
  | c' :: rest => if c' = c then some rest else none
  | [] => none

/-- Time-of-day part `HH:MM[:SS[.fff or .ffffff]]` of
`datetime.fromisoformat`. -/
def parseIsoTime (cs : List Char) : Option (Nat × Nat × Nat × Nat) :=
  match takeNDigits 2 cs with
  | none => none
  | some (h, r1) =>
    match expectChar ':' r1 with
    | none => none
    | some r2 =>
      match takeNDigits 2 r2 with
      | none => none
      | some (mi, r3) =>
        match r3 with
        | [] => some (h, mi, 0, 0)
        | _ =>
          match expectChar ':' r3 with
          | none => none
          | some r4 =>
            match takeNDigits 2 r4 with
            | none => none
            | some (s, r5) =>
              match r5 with
              | [] => some (h, mi, s, 0)
              | '.' :: r6 =>
                match takeNDigits 6 r6 with
                | some (f, []) => some (h, mi, s, f)
                | _ =>
                  match takeNDigits 3 r6 with
                  | some (f, []) => some (h, mi, s, f * 1000)
                  | _ => none
              | _ => none

/-- `datetime.fromisoformat`: `YYYY-MM-DD`, optionally followed by a single
separator character and a time of day.  `none` models a raised
`ValueError`. -/
def fromIso (s : String) : Option PDateTime :=
  match takeNDigits 4 s.data with
  | none => none
  | some (y, r1) =>
    match expectChar '-' r1 with
    | none => none
    | some r2 =>
      match takeNDigits 2 r2 with
      | none => none
      | some (m, r3) =>
        match expectChar '-' r3 with
        | none => none
        | some r4 =>
          match takeNDigits 2 r4 with
          | none => none
          | some (d, r5) =>
            match r5 with
            | [] => mkDTChecked (y : Int) m d 0 0 0
            | _ :: r6 =>
              match parseIsoTime r6 with
              | none => none
              | some (h, mi, sec, f) =>
                (mkDTChecked (y : Int) m d h mi sec).map
                  (fun t => ⟨t.secs, f⟩)

/-- `datetime.strptime(s, '%Y-%m-%d %H:%M:%S')` as used by the JSON snapshot
load hook; the whole string must be consumed. -/
def strptimeYmdHMS (s : String) : Option PDateTime :=
  match takeNDigits 4 s.data with
  | none => none
  | some (y, r1) =>
    match expectChar '-' r1 with
    | none => none
    | some r2 =>
      match take12Digits r2 with
      | none => none
      | some (m, r3) =>
        match expectChar '-' r3 with
        | none => none
        | some r4 =>
          match take12Digits r4 with
          | none => none
          | some (d, r5) =>
            match expectChar ' ' r5 with
            | none => none
            | some r6 =>
              match take12Digits r6 with
              | none => none
              | some (h, r7) =>
                match expectChar ':' r7 with
                | none => none
                | some r8 =>
                  match take12Digits r8 with
                  | none => none
                  | some (mi, r9) =>
                    match expectChar ':' r9 with
                    | none => none
                    | some r10 =>
                      match take12Digits r10 with
                      | some (sec, []) => mkDTChecked (y : Int) m d h mi sec
                      | _ => none

/-- `datetime.strptime(s, '%d.%m.%Y')` as used for the `next-release`
attribute; the whole string must be consumed. -/
def strptimeDmY (s : String) : Option PDateTime :=
  match take12Digits s.data with
  | none => none
  | some (d, r1) =>
    match expectChar '.' r1 with
    | none => none
    | some r2 =>
      match take12Digits r2 with
      | none => none
      | some (m, r3) =>
        match expectChar '.' r3 with
        | none => none
        | some r4 =>
          match takeNDigits 4 r4 with
          | some (y, []) => mkDTChecked (y : Int) m d 0 0 0
          | _ => none

/-! ### XML element model (`xml.etree.ElementTree` subset) -/

/-- An XML element: tag (with the namespace prefix folded into the string),
attributes, optional text, children.  `text = none` models an element whose
`.text` is Python `None`. -/
inductive XElem where
  | mk (tag : String) (attrs : List (String × String)) (text : Option String)
       (children : List XElem)

/-- Tag of an element. -/
def XElem.tag : XElem → String
  | .mk t _ _ _ => t

/-- Attribute list of an element. -/
def XElem.attrs : XElem → List (String × String)
  | .mk _ a _ _ => a

/-- Text of an element. -/
def XElem.text : XElem → Option String
  | .mk _ _ t _ => t

/-- Children of an element. -/
def XElem.children : XElem → List XElem
  | .mk _ _ _ c => c

/-- `node.find(tag)`: first direct child with the tag, or `None`. -/
def XElem.find (e : XElem) (t : String) : Option XElem :=
  e.children.find? (fun c => c.tag == t)

/-- `node.iterfind(tag)`: all direct children with the tag. -/
def XElem.iterfind (e : XElem) (t : String) : List XElem :=
  e.children.filter (fun c => c.tag == t)

/-- Follow a chain of `find` steps from an optional starting node. -/
def chase (node : Option XElem) (tags : List String) : Option XElem :=
  tags.foldl (fun n t => n.bind (fun e => e.find t)) node

/-- `Russtat._get_text(node, tags, default)` (with `strip=True`): the stripped
text of the node reached by the tag chain; the default when the chain fails
or the node is `None`; `.error` models the `AttributeError` raised by
`node.text.strip()` when the reached node's text is `None`. -/
def getText (node : Option XElem) (tags : List String) (dflt : String) :
    Except Unit String :=
  match chase node tags with
  | none => .ok dflt
  | some e =>
    match e.text with
    | none => .error ()
    | some t => .ok (pyStrip t)

/-- `Russtat._get_attr(node, attr, tags, default)`: the stripped attribute
value of the node reached by the tag chain, or the default.  Never raises. -/
def getAttr (node : Option XElem) (attr : String) (tags : List String)
    (dflt : String) : String :=
  match chase node tags with
  | none => dflt
  | some e =>
    match e.attrs.lookup attr with
    | none => dflt
    | some v => pyStrip v

/-! ### `Russtat._get_codes` -/

/-- One entry of the code-list table: display name and ordered
(value, description) pairs. -/
structure CodeEntry where
  name : String
  values : List (String × String)
deriving DecidableEq, Repr

/-- Python `dict` assignment `d[k] = v` on an insertion-ordered
association list. -/
def dictInsert {α : Type} (k : String) (v : α) :
    List (String × α) → List (String × α)
  | [] => [(k, v)]
  | (k', v') :: rest =>
    if k' = k then (k, v) :: rest else (k', v') :: dictInsert k v rest

/-- The `(value, description)` pairs of one `structure:CodeList` element;
`.error` models an `AttributeError` from a `structure:Description` child
whose text is `None`. -/
def getCodeValues : List XElem → Except Unit (List (String × String))
  | [] => .ok []
  | code :: rest => do
    let desc ← getText (some code) ["structure:Description"] ""
    let tail ← getCodeValues rest
    return (getAttr (some code) "value" [] "", desc) :: tail

/-- Loop body of `Russtat._get_codes` over the `structure:CodeList`
children. -/
def getCodesLoop : List XElem → List (String × CodeEntry) →
    Except Unit (List (String × CodeEntry))
  | [], acc => .ok acc
  | item :: rest, acc => do
    let nm ← getText (some item) ["structure:Name"] ""
    let vals ← getCodeValues (item.iterfind "structure:Code")
    getCodesLoop rest (dictInsert (getAttr (some item) "id" [] "") ⟨nm, vals⟩ acc)

/-- `Russtat._get_codes(ds_rootnode)`: the code-list table.  `.error` models
the `AttributeError` raised when the `message:CodeLists` block is absent
(`None.iterfind`), or an exception escaping a text extraction. -/
def getCodes (root : XElem) : Except Unit (List (String × CodeEntry)) :=
  match root.find "message:CodeLists" with
  | none => .error ()
  | some cls => getCodesLoop (cls.iterfind "structure:CodeList") []

/-! ### `Russtat._get_data` -/

/-- One observation row
`(classifier, class, unit, period, year, value)`. -/
def Row : Type := String × String × String × String × Int × Rat

instance : DecidableEq Row := by unfold Row; infer_instance

instance : Repr Row := by unfold Row; infer_instance

/-- Accumulate `PERIOD` / `EI` concept attributes over the
`generic:Value` children of `generic:Attributes` (order-independent lookup
by concept name); accumulator is `(per, ei)`. -/
def seriesAttrsFold (vals : List XElem) : String × String :=
  vals.foldl
    (fun acc attr =>
      let concept := getAttr (some attr) "concept" [] ""
      let v := getAttr (some attr) "value" [] ""
      if concept = "EI" then (acc.1, v)
      else if concept = "PERIOD" then (v, acc.2)
      else acc)
    ("", "")

/-- Period and unit of a series; a missing `generic:Attributes` block raises
`AttributeError`, caught to `('', '')` by the source. -/
def seriesPerEi (item : XElem) : String × String :=
  match item.find "generic:Attributes" with
  | none => ("", "")
  | some a => seriesAttrsFold (a.iterfind "generic:Value")

/-- Observation year of a series:
`int(self._get_text(item, ['generic:Obs', 'generic:Time'], '0'))` with the
whole expression guarded by `try/except` defaulting to `0`. -/
def seriesYear (item : XElem) : Int :=
  match getText (some item) ["generic:Obs", "generic:Time"] "0" with
  | .error _ => 0
  | .ok t => (pyInt t).getD 0

/-- Observation value of a series:
`float(attr.replace(',', '.').replace(' ', ''))` on the
`generic:Obs/generic:ObsValue` `value` attribute (default `'0.0'`), guarded
by `try/except` defaulting to `0.0`. -/
def seriesVal (item : XElem) : Rat :=
  let raw := getAttr (some item) "value" ["generic:Obs", "generic:ObsValue"] "0.0"
  (pyFloat (commaDotNoSpace raw)).getD 0

/-- Resolve a series key against the code-list table: the first code list
whose id equals the key concept gives the classifier group name, and within
it the first value pair matching the key gives the class label. -/
def lookupCode (codes : List (String × CodeEntry)) (concept key : String) :
    String × String :=
  match codes.find? (fun c => c.1 == concept) with
  | none => ("", "")
  | some c =>
    (c.2.name,
     match c.2.values.find? (fun cv => cv.1 == key) with
     | none => ""
     | some cv => cv.2)

/-- Inner loop of `_get_data` over the `generic:Value` children of
`generic:SeriesKey`: one row is appended per key; the `break` on
`max_row` exits only this inner loop.  Returns the rows and the updated
running row count `n`. -/
def seriesKeyRows (keyItems : List XElem) (codes : List (String × CodeEntry))
    (ei per : String) (tim : Int) (val : Rat) (maxRow : Int) (n : Nat) :
    List Row × Nat :=
  match keyItems with
  | [] => ([], n)
  | k :: rest =>
    let kc := getAttr (some k) "concept" [] ""
    let kk := getAttr (some k) "value" [] ""
    let pair := lookupCode codes kc kk
    let row : Row := (pair.1, pair.2, ei, per, tim, val)
    let n' := n + 1
    if 0 < maxRow ∧ maxRow < (n' : Int) then ([row], n')
    else
      let tail := seriesKeyRows rest codes ei per tim val maxRow n'
      (row :: tail.1, tail.2)

/-- Rows contributed by one `generic:Series` element.  A missing
`generic:SeriesKey` raises (`None.iterfind`), caught by the `except` branch
which appends a single row with empty classifier fields; the `break` of that
branch exits the outer series loop, signalled by the returned flag. -/
def seriesRows (item : XElem) (codes : List (String × CodeEntry))
    (maxRow : Int) (n : Nat) : List Row × Nat × Bool :=
  let pe := seriesPerEi item
  let tim := seriesYear item
  let val := seriesVal item
  match item.find "generic:SeriesKey" with
  | none =>
    ([("", "", pe.2, pe.1, tim, val)], n + 1,
     decide (0 < maxRow ∧ maxRow < ((n : Int) + 1)))
  | some sk =>
    let r := seriesKeyRows (sk.iterfind "generic:Value") codes pe.2 pe.1 tim val maxRow n
    (r.1, r.2, false)

/-- Outer loop of `_get_data` over the `generic:Series` children. -/
def dataLoop (items : List XElem) (codes : List (String × CodeEntry))
    (maxRow : Int) (n : Nat) : List Row :=
  match items with
  | [] => []
  | item :: rest =>
    let r := seriesRows item codes maxRow n
    if r.2.2 then r.1 else r.1 ++ dataLoop rest codes maxRow r.2.1

/-- `Russtat._get_data(ds_rootnode, codes, max_row)`: the observation rows.
`if not dataset: return []` is Python element falsiness — true both for a
missing `message:DataSet` block and for one with no children. -/
def getData (root : XElem) (codes : List (String × CodeEntry)) (maxRow : Int) :
    List Row :=
  match root.find "message:DataSet" with
  | none => []
  | some d =>
    if d.children.isEmpty then []
    else dataLoop (d.iterfind "generic:Series") codes maxRow 0

/-! ### The canonical dataset record built by `Russtat.get_one` -/

/-- The `periodicity` sub-dictionary. -/
structure Periodicity where
  value : String
  releases : String
  next : PDateTime
deriving DecidableEq, Repr

/-- The `classifier` sub-dictionary. -/
structure Classifier where
  id : String
  path : String
deriving DecidableEq, Repr

/-- The `prepared_by` sub-dictionary. -/
structure PreparedBy where
  name : String
  contacts : String
deriving DecidableEq, Repr

/-- The dataset dictionary built by `Russtat.get_one` (lines 552-555 give the
initial value, lines 562-586 fill it in). -/
structure DS where
  prepared : PDateTime
  id : String
  agency_id : String
  codes : List (String × CodeEntry)
  full_name : String
  unit : String
  periodicity : Periodicity
  data_range : Int × Int
  updated : PDateTime
  methodology : String
  agency_name : String
  agency_dept : String
  classifier : Classifier
  prepared_by : PreparedBy
  data : List Row
deriving DecidableEq, Repr

/-- The initial dataset dictionary of `get_one` (line 552-555): descriptor
identifier and title, `dt.now()` for `prepared`, 1900-01-01 placeholders for
the other timestamps. -/
def initDS (identifier title : String) (now : PDateTime) : DS where
  prepared := now
  id := identifier
  agency_id := ""
  codes := []
  full_name := title
  unit := ""
  periodicity := ⟨"", "", mkDT 1900 1 1 0 0 0⟩
  data_range := (-1, -1)
  updated := mkDT 1900 1 1 0 0 0
  methodology := ""
  agency_name := ""
  agency_dept := ""
  classifier := ⟨"", ""⟩
  prepared_by := ⟨"", ""⟩
  data := []

/-- `ds_rootnode.find('message:Description').find('message:Indicator')`,
given that the `message:Description` block exists. -/
def descIndicator (root : XElem) : Option XElem :=
  match root.find "message:Description" with
  | none => none
  | some d => d.find "message:Indicator"

/-- Parse step (line 563): `prepared` from the header, minus 3 hours.  An
`.error` carries the dataset state at the point of the exception, which
`get_one` hands to the callback. -/
def stepPrepared (root : XElem) (ds : DS) : Except DS DS :=
  match getText (root.find "message:Header") ["message:Prepared"] "1900-01-01" with
  | .error _ => .error ds
  | .ok t =>
    match fromIso t with
    | none => .error ds
    | some p => .ok { ds with prepared := dtSubHours p 3 }

/-- Parse step (line 564): `id` from the header. -/
def stepId (root : XElem) (ds : DS) : Except DS DS :=
  match getText (root.find "message:Header") ["message:DataSetID"] "" with
  | .error _ => .error ds
  | .ok t => .ok { ds with id := t }

/-- Parse step (line 565): `agency_id` from the header. -/
def stepAgencyId (root : XElem) (ds : DS) : Except DS DS :=
  match getText (root.find "message:Header") ["message:DataSetAgency"] "" with
  | .error _ => .error ds
  | .ok t => .ok { ds with agency_id := t }

/-- Parse step (line 568): the code-list table. -/
def stepCodes (root : XElem) (ds : DS) : Except DS DS :=
  match getCodes root with
  | .error _ => .error ds
  | .ok c => .ok { ds with codes := c }

/-- Parse step (line 571): `root.find('message:Description')` must exist,
else `.find('message:Indicator')` on `None` raises `AttributeError`. -/
def stepDescCheck (root : XElem) (ds : DS) : Except DS DS :=
  match root.find "message:Description" with
  | none => .error ds
  | some _ => .ok ds

/-- Parse steps (lines 572-575): full name, unit, periodicity value and
releases — attribute reads that never raise. -/
def stepNameUnitPeriod (root : XElem) (ds : DS) : Except DS DS :=
  let nd := descIndicator root
  .ok { ds with
    full_name := normSpace (getAttr nd "name" [] "")
    unit := getAttr nd "value" ["message:Units", "message:Unit"] ""
    periodicity := { ds.periodicity with
      value := getAttr nd "value" ["message:Periodicities", "message:Periodicity"] ""
      releases := getAttr nd "releases" ["message:Periodicities", "message:Periodicity"] "" } }

/-- Parse step (line 576): next release date via `strptime('%d.%m.%Y')`,
minus 3 hours. -/
def stepNext (root : XElem) (ds : DS) : Except DS DS :=
  match strptimeDmY (getAttr (descIndicator root) "next-release"
      ["message:Periodicities", "message:Periodicity"] "01.01.1900") with
  | none => .error ds
  | some p =>
    .ok { ds with periodicity := { ds.periodicity with next := dtSubHours p 3 } }

/-- Parse step (line 577): data range years via `int(...)`; the generator
evaluates `start` before `end`. -/
def stepRange (root : XElem) (ds : DS) : Except DS DS :=
  let nd := descIndicator root
  match pyInt (getAttr nd "start" ["message:DataRange"] "0") with
  | none => .error ds
  | some a =>
    match pyInt (getAttr nd "end" ["message:DataRange"] "0") with
    | none => .error ds
    | some b => .ok { ds with data_range := (a, b) }

/-- Parse step (line 578): `updated` via `fromisoformat`, minus 3 hours. -/
def stepUpdated (root : XElem) (ds : DS) : Except DS DS :=
  match fromIso (getAttr (descIndicator root) "value" ["message:LastUpdate"] "1900-01-01") with
  | none => .error ds
  | some p => .ok { ds with updated := dtSubHours p 3 }

/-- Parse steps (lines 579-581): methodology, agency name and department —
attribute reads that never raise. -/
def stepMethodAgency (root : XElem) (ds : DS) : Except DS DS :=
  let nd := descIndicator root
  .ok { ds with
    methodology := normSpace (getAttr nd "value" ["message:Methodology"] "")
    agency_name := getAttr nd "value" ["message:Organization"] ""
    agency_dept := getAttr nd "value" ["message:Department"] "" }

/-- Parse steps (lines 582-583): classifier id (attribute read, total), then
classifier path (a text read that may raise after the id was stored). -/
def stepClassifier (root : XElem) (ds : DS) : Except DS DS :=
  let nd := descIndicator root
  let ds1 := { ds with classifier :=
    { ds.classifier with id := getAttr nd "id" ["message:Allocations", "message:Allocation"] "" } }
  match getText nd ["message:Allocations", "message:Allocation", "message:Name"] "" with
  | .error _ => .error ds1
  | .ok p => .ok { ds1 with classifier := { ds1.classifier with path := p } }

/-- Parse steps (lines 584-585): responsible person name and contacts (text
reads, each may raise). -/
def stepPrepBy (root : XElem) (ds : DS) : Except DS DS :=
  match getText (descIndicator root) ["message:Responsible", "message:Name"] "" with
  | .error _ => .error ds
  | .ok nm =>
    let ds1 := { ds with prepared_by := { ds.prepared_by with name := nm } }
    match getText (descIndicator root) ["message:Responsible", "message:Contacts"] "" with
    | .error _ => .error ds1
    | .ok ct => .ok { ds1 with prepared_by := { ds1.prepared_by with contacts := ct } }

/-- Parse step (line 586): observation data from `_get_data` (total). -/
def stepData (root : XElem) (ds : DS) : Except DS DS :=
  .ok { ds with data := getData root ds.codes (-1) }

/-- Lines 562-568: the extraction performed before the
`message:Description` block is looked up (header fields and code lists). -/
def preDescPhase (root : XElem) (ds0 : DS) : Except DS DS :=
  stepPrepared root ds0 >>= stepId root >>= stepAgencyId root >>= stepCodes root

/-- Lines 572-586: the extraction performed after the `message:Description`
block was found. -/
def postDescPhase (root : XElem) (d : DS) : Except DS DS :=
  stepNameUnitPeriod root d >>= stepNext root >>= stepRange root >>=
  stepUpdated root >>= stepMethodAgency root >>= stepClassifier root >>=
  stepPrepBy root >>= stepData root

/-- The parse phase of `get_one` (lines 562-586) as a chain of steps; the
first exception aborts the chain, carrying the partially filled record. -/
def parseBody (root : XElem) (ds0 : DS) : Except DS DS :=
  preDescPhase root ds0 >>= stepDescCheck root >>= postDescPhase root

/-- Document-processing phase of `get_one` (lines 557-633) given the XML
parse outcome (`none` models a malformed document, whose exception is
raised before any field is extracted).  Returns the function result and
the list of values passed to the callback (empty when no callback is
attached): on success the finished record is returned and delivered once;
on an exception `None` is returned and the partial record is delivered
once (lines 612-631). -/
def processDoc (root? : Option XElem) (ds0 : DS) (hasCb : Bool) :
    Option DS × List DS :=
  match root? with
  | none => (none, if hasCb then [ds0] else [])
  | some root =>
    match parseBody root ds0 with
    | .error p => (none, if hasCb then [p] else [])
    | .ok ds => (some ds, if hasCb then [ds] else [])

/-! ### JSON snapshot model: `json.dump(..., default=str)` and
`json.load(..., object_hook=json_hook)` -/

/-- The Python values appearing in the dataset dictionary. -/
inductive PyValue where
  | pstr (s : String)
  | pint (n : Int)
  | pfloat (q : Rat)
  | pdt (d : PDateTime)
  | plist (xs : List PyValue)
  | ptuple (xs : List PyValue)
  | pdict (kvs : List (String × PyValue))

/-- JSON values (objects as insertion-ordered key/value lists, numbers kept
as integer or float exactly as Python's `json` round-trips them). -/
inductive JValue where
  | jstr (s : String)
  | jint (n : Int)
  | jfloat (q : Rat)
  | jarr (xs : List JValue)
  | jobj (kvs : List (String × JValue))

mutual

/-- `json.dump(..., default=str)` on a Python value: tuples and lists both
serialize as arrays; a `datetime` is not JSON-serializable, so `default=str`
writes `str(datetime)`. -/
def pyDump : PyValue → JValue
  | .pstr s => .jstr s
  | .pint n => .jint n
  | .pfloat q => .jfloat q
  | .pdt d => .jstr (dtStr d)
  | .plist xs => .jarr (pyDumpList xs)
  | .ptuple xs => .jarr (pyDumpList xs)
  | .pdict kvs => .jobj (pyDumpKVs kvs)

/-- `pyDump` over a list of values. -/
def pyDumpList : List PyValue → List JValue
  | [] => []
  | x :: xs => pyDump x :: pyDumpList xs

/-- `pyDump` over the entries of a dictionary. -/
def pyDumpKVs : List (String × PyValue) → List (String × JValue)
  | [] => []
  | (k, v) :: kvs => (k, pyDump v) :: pyDumpKVs kvs

end

/-- The `json_hook` of `get_one` (lines 480-484): on every decoded object,
replace the values at keys `prepared` / `next` / `updated` by
`datetime.strptime(value, '%Y-%m-%d %H:%M:%S')`.  `none` models the
exception raised when the value does not match that format exactly (e.g. a
sub-second suffix) or is not a string; the exception aborts the whole
`json.load`. -/
def jsonHookLoop : List (String × PyValue) → Option (List (String × PyValue))
  | [] => some []
  | (k, v) :: rest =>
    if k = "prepared" ∨ k = "next" ∨ k = "updated" then
      match v with
      | .pstr s =>
        match strptimeYmdHMS s with
        | none => none
        | some t => (jsonHookLoop rest).map (fun l => (k, .pdt t) :: l)
      | _ => none
    else (jsonHookLoop rest).map (fun l => (k, v) :: l)

mutual

/-- `json.load(..., object_hook=json_hook)` on a JSON value: arrays decode
as lists (never tuples), objects pass through `json_hook` bottom-up. -/
def pyLoad : JValue → Option PyValue
  | .jstr s => some (.pstr s)
  | .jint n => some (.pint n)
  | .jfloat q => some (.pfloat q)
  | .jarr xs => (pyLoadList xs).map PyValue.plist
  | .jobj kvs =>
    match pyLoadKVs kvs with
    | none => none
    | some l => (jsonHookLoop l).map PyValue.pdict

/-- `pyLoad` over the elements of an array. -/
def pyLoadList : List JValue → Option (List PyValue)
  | [] => some []
  | x :: xs =>
    match pyLoad x with
    | none => none
    | some v => (pyLoadList xs).map (fun l => v :: l)

/-- `pyLoad` over the entries of an object (before the hook). -/
def pyLoadKVs : List (String × JValue) → Option (List (String × PyValue))
  | [] => some []
  | (k, v) :: kvs =>
    match pyLoad v with
    | none => none
    | some w => (pyLoadKVs kvs).map (fun l => (k, w) :: l)

end

/-- One observation row as the Python tuple stored under `'data'`. -/
def encodeRow (r : Row) : PyValue :=
  .ptuple [.pstr r.1, .pstr r.2.1, .pstr r.2.2.1, .pstr r.2.2.2.1,
           .pint r.2.2.2.2.1, .pfloat r.2.2.2.2.2]

/-- One code-list entry as the Python dict stored under `'codes'`. -/
def encodeCode (c : String × CodeEntry) : String × PyValue :=
  (c.1, .pdict [("name", .pstr c.2.name),
                ("values", .plist (c.2.values.map
                  (fun v => .ptuple [.pstr v.1, .pstr v.2])))])

/-- The dataset record as the Python dictionary `get_one` builds and saves
(key order of lines 552-555). -/
def encodeDS (ds : DS) : PyValue :=
  .pdict [
    ("prepared", .pdt ds.prepared),
    ("id", .pstr ds.id),
    ("agency_id", .pstr ds.agency_id),
    ("codes", .pdict (ds.codes.map encodeCode)),
    ("full_name", .pstr ds.full_name),
    ("unit", .pstr ds.unit),
    ("periodicity", .pdict [("value", .pstr ds.periodicity.value),
                            ("releases", .pstr ds.periodicity.releases),
                            ("next", .pdt ds.periodicity.next)]),
    ("data_range", .ptuple [.pint ds.data_range.1, .pint ds.data_range.2]),
    ("updated", .pdt ds.updated),
    ("methodology", .pstr ds.methodology),
    ("agency_name", .pstr ds.agency_name),
    ("agency_dept", .pstr ds.agency_dept),
    ("classifier", .pdict [("id", .pstr ds.classifier.id),
                           ("path", .pstr ds.classifier.path)]),
    ("prepared_by", .pdict [("name", .pstr ds.prepared_by.name),
                            ("contacts", .pstr ds.prepared_by.contacts)]),
    ("data", .plist (ds.data.map encodeRow))]

/-- One observation row as reloaded from a snapshot: a list, not a tuple. -/
def encodeRowLoaded (r : Row) : PyValue :=
  .plist [.pstr r.1, .pstr r.2.1, .pstr r.2.2.1, .pstr r.2.2.2.1,
          .pint r.2.2.2.2.1, .pfloat r.2.2.2.2.2]

/-- One code-list entry as reloaded from a snapshot: value pairs become
lists. -/
def encodeCodeLoaded (c : String × CodeEntry) : String × PyValue :=
  (c.1, .pdict [("name", .pstr c.2.name),
                ("values", .plist (c.2.values.map
                  (fun v => .plist [.pstr v.1, .pstr v.2])))])

/-- The dataset record as it comes back from a snapshot reload: identical to
`encodeDS` except that every tuple has become a list. -/
def encodeDSLoaded (ds : DS) : PyValue :=
  .pdict [
    ("prepared", .pdt ds.prepared),
    ("id", .pstr ds.id),
    ("agency_id", .pstr ds.agency_id),
    ("codes", .pdict (ds.codes.map encodeCodeLoaded)),
    ("full_name", .pstr ds.full_name),
    ("unit", .pstr ds.unit),
    ("periodicity", .pdict [("value", .pstr ds.periodicity.value),
                            ("releases", .pstr ds.periodicity.releases),
                            ("next", .pdt ds.periodicity.next)]),
    ("data_range", .plist [.pint ds.data_range.1, .pint ds.data_range.2]),
    ("updated", .pdt ds.updated),
    ("methodology", .pstr ds.methodology),
    ("agency_name", .pstr ds.agency_name),
    ("agency_dept", .pstr ds.agency_dept),
    ("classifier", .pdict [("id", .pstr ds.classifier.id),
                           ("path", .pstr ds.classifier.path)]),
    ("prepared_by", .pdict [("name", .pstr ds.prepared_by.name),
                            ("contacts", .pstr ds.prepared_by.contacts)]),
    ("data", .plist (ds.data.map encodeRowLoaded))]

/-! ### `Russtat.get_one` at the job level -/

/-- A dataset descriptor (the dictionary entries of the catalog list).  The
`link` key may be absent (line 524 checks for it); `identifier` and `title`
are read unconditionally (line 552). -/
structure Descriptor where
  identifier : String
  title : String
  link : Option String
deriving DecidableEq, Repr

/-- A value a `get_one` call can produce or deliver: a dictionary loaded
from a JSON snapshot, or a record parsed from XML. -/
inductive JobValue where
  | fromJson (v : PyValue)
  | parsed (d : DS)

/-- The external world one `get_one` call interacts with.
`snapshot`: content of the JSON snapshot file (`none` = absent, unreadable
or not well-formed JSON).  `xmlExists`: whether the target XML file already
exists.  `existingDoc`: XML parse outcome of that pre-existing file.
`netDoc`: `none` = network failure (exception or falsy response), `some p` =
download succeeded with XML parse outcome `p`.  `now`: `dt.now()`.
File writes and deletions (`save2json`, `del_xml`) have no observable
effect on the returned value or the callback and are not modelled; the
callback is modelled as total (a callback that itself raises escapes
`get_one` uncaught on the snapshot path and is double-invoked on the parse
path — outside this model). -/
structure FetchWorld where
  snapshot : Option JValue
  xmlExists : Bool
  existingDoc : Option XElem
  netDoc : Option (Option XElem)
  now : PDateTime

/-- `Russtat.get_one(dataset, ...)` for a descriptor argument: returns the
function result and the number of callback invocations (`hasCb` = a
callback was attached).  `lfj` models a non-null `loadfromjson` ('auto' or
a file name): try the snapshot first (lines 503-522; the callback fires
once on a successful load); on failure fall back to the XML path
(lines 524-633) — no `link` key or a network failure returns `None`
without invoking the callback; otherwise the document outcome goes through
`processDoc`. -/
def getOneJob (descr : Descriptor) (overwrite lfj hasCb : Bool)
    (w : FetchWorld) : Option JobValue × Nat :=
  let fromSnapshot : Option PyValue :=
    if lfj then w.snapshot.bind pyLoad else none
  match fromSnapshot with
  | some v => (some (.fromJson v), if hasCb then 1 else 0)
  | none =>
    match descr.link with
    | none => (none, 0)
    | some _ =>
      let doc? : Option (Option XElem) :=
        if ¬ w.xmlExists ∨ overwrite then w.netDoc else some w.existingDoc
      match doc? with
      | none => (none, 0)
      | some parseOutcome =>
        let r := processDoc parseOutcome (initDS descr.identifier descr.title w.now) hasCb
        (r.1.map JobValue.parsed, r.2.length)

/-! ### `Russtat.get_many`: argument preparation, dispatch, result
collection -/

/-- One positional field of a worker argument tuple. -/
inductive ArgField where
  | fdescr (d : Descriptor)
  | fstr (s : String)
  | fbool (b : Bool)
  | fnone
deriving DecidableEq

/-- One worker argument tuple of the batch branch (line 717):
`(ds, xmlfilename, overwrite, del_xml, save2json_, loadfromjson_, None,
None)` — the 7th and 8th slots (`on_dataset`, `on_dataset_kwargs`) are the
literal `None`, not the orchestrator's `on_dataset` argument. -/
def argTuple (ds : Descriptor) (xmlfilename : String) (ow dx : Bool)
    (s2j lfj : String) : List ArgField :=
  [.fdescr ds, .fstr xmlfilename, .fbool ow, .fbool dx, .fstr s2j, .fstr lfj,
   .fnone, .fnone]

/-- Argument preparation of `get_many` (lines 700-717) for the batch branch
with scalar `xmlfilenames` / `save2json` / `loadfromjson` parameters (the
default `'auto'` configuration — per-job arrays are not modelled).  The
`onDs` parameter mirrors `get_many`'s `on_dataset` argument, which this
loop ignores. -/
def argPrep (datasets : List Descriptor) (xmlfilename : String) (ow dx : Bool)
    (s2j lfj : String) (onDs : Option Unit) : List (List ArgField) :=
  datasets.map (fun ds => argTuple ds xmlfilename ow dx s2j lfj)

/-- Number of calls `dask.distributed.Client.map(func, *iterables)` makes:
the iterables are zipped, so it is the length of the shortest iterable. -/
def daskZipLen : List (List ArgField) → Nat
  | [] => 0
  | [r] => r.length
  | r :: rest => min r.length (daskZipLen rest)

/-- The calls dispatched by `self.cluster.map(self.get_one, *args)`
(line 726): unpacking `args` makes each per-job tuple one map iterable, so
the iterables are zipped across jobs — call `k` receives the `k`-th field
of every job tuple as its positional arguments (a transposition of what the
argument preparation built). -/
def daskTasks (rows : List (List ArgField)) : List (List ArgField) :=
  (List.range (daskZipLen rows)).map (fun k => rows.map (fun r => r.getD k .fnone))

/-- `Russtat.set_stopped(st)`: store `st` in the shared dask stop
variable. -/
def setStopped (st : Bool) : Bool := st

/-- Result-collection loop of `get_many` (lines 729-738): append each
completed result, then read the stop flag; if it is set, cancel the
remaining futures and return the partial list.  `stop k` is the flag value
read after the `(k+1)`-th result was appended. -/
def gatherLoop {α : Type} : List α → (Nat → Bool) → List α
  | [], _ => []
  | o :: rest, stop =>
    o :: (if stop 0 then [] else gatherLoop rest (fun k => stop (k + 1)))

/-- The stop-flag value at the `k`-th gather check: the value left by
`set_stopped(False)` at dispatch time, OR-ed with any external
`set_stopped(True)` that happened before the check (`extStop k`). -/
def flagAtCheck (flagAfterDispatch : Bool) (extStop : Nat → Bool) (k : Nat) :
    Bool :=
  flagAfterDispatch || extStop k

/-- A run of `get_many` (batch branch, lines 700-743): prepare the argument
tuples, reset the stop flag (`self.set_stopped(False)`, line 724), dispatch
via `cluster.map`, then collect with `as_completed`.  `outcome` gives each
dispatched call's result, `order` the completion order (indices into the
dispatched call list), `extStop` the external cancellation events. -/
def getManyRun (initFlag : Bool) (datasets : List Descriptor)
    (xmlfilename : String) (ow dx : Bool) (s2j lfj : String)
    (onDs : Option Unit) (outcome : List ArgField → Option JobValue)
    (order : List Nat) (extStop : Nat → Bool) : List (Option JobValue) :=
  let flagAfterDispatch := setStopped false
  let futures := daskTasks (argPrep datasets xmlfilename ow dx s2j lfj onDs)
  let completed := order.filterMap (fun i => (futures.map outcome).get? i)
  gatherLoop completed (flagAtCheck flagAfterDispatch extStop)

/-! ### `Russtatdb.get_classificator` (psdb.py lines 301-318) -/

/-- Python slice `l[a:m]` for a natural start and optional natural stop. -/
def pySlice {α : Type} (a : Nat) (m : Option Nat) (l : List α) : List α :=
  match m with
  | none => l.drop a
  | some m => (l.take m).drop a

/-- `[(tuple(s.strip() for s in x[0].split('/')[int(ignore_root):max_levels]),
x[1]) for x in dsets]`: the trimmed segment tuple of each classifier path,
paired with the dataset id. -/
def splitPaths (rows : List (String × Int)) (ignoreRoot : Bool)
    (maxLevels : Option Nat) : List (List String × Int) :=
  rows.map (fun x =>
    ((pySlice (if ignoreRoot then 1 else 0) maxLevels (pySplitOn '/' x.1)).map
       pyStrip,
     x.2))

/-- All non-empty prefixes of a segment tuple (`el[0][:i]` for
`i in range(1, len(el[0]) + 1)`). -/
def prefixesOf (l : List String) : List (List String) :=
  (List.range l.length).map (fun i => l.take (i + 1))

/-- Deduplication keeping first occurrences (the Python `set`; the
subsequent sort makes the retained order irrelevant). -/
def dedupKF : List (List String) → List (List String)
  | [] => []
  | a :: as => a :: (dedupKF as).filter (fun b => decide (b ≠ a))

/-- Lexicographic comparison of segment tuples, as Python's `sorted` orders
tuples of strings. -/
def lexLe : List String → List String → Bool
  | [], _ => true
  | _ :: _, [] => false
  | a :: as, b :: bs => if strLt a b then true else if a = b then lexLe as bs else false

/-- Insert into a sorted list (insertion sort; any correct sort agrees with
Python's `sorted` on the duplicate-free prefix set). -/
def insertSorted (a : List String) : List (List String) → List (List String)
  | [] => [a]
  | b :: bs => if lexLe a b then a :: b :: bs else b :: insertSorted a bs

/-- Sort segment tuples lexicographically. -/
def sortLex : List (List String) → List (List String)
  | [] => []
  | a :: as => insertSorted a (sortLex as)

/-- Does `t_src[0][:len(t_new)] == t_new` with the length guard of
psdb.py lines 313-315? -/
def tupleHasPref (pre l : List String) : Bool :=
  decide (pre.length ≤ l.length) && (l.take pre.length == pre)

/-- `Russtatdb.get_classificator(ignore_root, max_levels)` applied to the
`(classifier, id)` rows the query returns: the sorted deduplicated prefix
set, each prefix paired with the ids of all datasets whose tuple extends
it. -/
def getClassificator (rows : List (String × Int)) (ignoreRoot : Bool)
    (maxLevels : Option Nat) : List (List String × List Int) :=
  let spl := splitPaths rows ignoreRoot maxLevels
  let st := sortLex (dedupKF (spl.flatMap (fun el => prefixesOf el.1)))
  st.map (fun t => (t, (spl.filter (fun s => tupleHasPref t s.1)).map Prod.snd))

/-! ### Concrete document fixtures for witnesses and counterexamples -/

/-- A `message:Header` block. -/
def hdrEl : XElem :=
  .mk "message:Header" [] none
    [.mk "message:Prepared" [] (some "2020-10-07 03:13:25") [],
     .mk "message:DataSetID" [] (some "6804027") [],
     .mk "message:DataSetAgency" [] (some "48") []]

/-- A `message:CodeLists` block with one code list. -/
def codesEl : XElem :=
  .mk "message:CodeLists" [] none
    [.mk "structure:CodeList" [("id", "OKSM")] none
      [.mk "structure:Name" [] (some "country code") [],
       .mk "structure:Code" [("value", "643")] none
         [.mk "structure:Description" [] (some "Russian Federation") []]]]

/-- A `message:Description` block with a filled-in indicator. -/
def descEl : XElem :=
  .mk "message:Description" [] none
    [.mk "message:Indicator" [("name", "Personal  transfers")] none
      [.mk "message:Units" [] none
        [.mk "message:Unit" [("value", "percent")] none []],
       .mk "message:Periodicities" [] none
        [.mk "message:Periodicity"
          [("value", "Quarterly"), ("releases", "30 April"),
           ("next-release", "30.04.2021")] none []],
       .mk "message:DataRange" [("start", "2014"), ("end", "2019")] none [],
       .mk "message:LastUpdate" [("value", "2020-08-27 17:08:38")] none [],
       .mk "message:Methodology" [("value", "Survey  based")] none [],
       .mk "message:Organization" [("value", "Central Bank")] none [],
       .mk "message:Department" [("value", "Statistics Department")] none [],
       .mk "message:Allocations" [] none
        [.mk "message:Allocation" [("id", "2.8")] none
          [.mk "message:Name" [] (some "Indicators / Foreign trade") []]],
       .mk "message:Responsible" [] none
        [.mk "message:Name" [] (some "J. Doe") [],
         .mk "message:Contacts" [] (some "doe at example dot org") []]]]

/-- A `generic:Series` with one key, attributes, a year and a
decimal-comma value. -/
def seriesEl : XElem :=
  .mk "generic:Series" [] none
    [.mk "generic:SeriesKey" [] none
      [.mk "generic:Value" [("concept", "OKSM"), ("value", "643")] none []],
     .mk "generic:Attributes" [] none
      [.mk "generic:Value" [("concept", "EI"), ("value", "percent")] none [],
       .mk "generic:Value" [("concept", "PERIOD"), ("value", "year total")] none []],
     .mk "generic:Obs" [] none
      [.mk "generic:Time" [] (some "2014") [],
       .mk "generic:ObsValue" [("value", "1,5")] none []]]

/-- A `message:DataSet` block with one series. -/
def dataSetEl : XElem :=
  .mk "message:DataSet" [] none [seriesEl]

/-- A complete well-formed dataset document. -/
def fullRoot : XElem :=
  .mk "GenericData" [] none [hdrEl, codesEl, descEl, dataSetEl]

/-- A dataset document with no `message:Header` block (but with the
`message:CodeLists` and `message:Description` blocks present). -/
def noHeaderRoot : XElem :=
  .mk "GenericData" [] none
    [.mk "message:CodeLists" [] none [],
     .mk "message:Description" [] none [.mk "message:Indicator" [] none []]]

/-- A dataset document with a header but no `message:Description` block. -/
def noDescRoot : XElem :=
  .mk "GenericData" [] none [hdrEl, codesEl, dataSetEl]

/-- A fixed descriptor for concrete runs. -/
def descr0 : Descriptor :=
  ⟨"6804027", "Personal transfers dataset", some "https-link-to-xml"⟩

/-- A fixed `dt.now()` instant for concrete runs. -/
def now0 : PDateTime := mkDT 2021 5 1 12 0 0

/-- Two more descriptors for batch fixtures. -/
def descr1 : Descriptor := ⟨"7001", "Grain harvest", some "link-7001"⟩

/-- A third descriptor for batch fixtures. -/
def descr2 : Descriptor := ⟨"7002", "Employment rate", some "link-7002"⟩

/-- The record `parseBody` produces from `fullRoot` (timestamps are the
document values shifted back 3 hours: prepared 2020-10-07 00:13:25,
updated 2020-08-27 14:08:38, next release 2021-04-29 21:00:00). -/
def dsFull : DS where
  prepared := ⟨1602029605, 0⟩
  id := "6804027"
  agency_id := "48"
  codes := [("OKSM", ⟨"country code", [("643", "Russian Federation")]⟩)]
  full_name := "Personal transfers"
  unit := "percent"
  periodicity := ⟨"Quarterly", "30 April", ⟨1619730000, 0⟩⟩
  data_range := (2014, 2019)
  updated := ⟨1598537318, 0⟩
  methodology := "Survey based"
  agency_name := "Central Bank"
  agency_dept := "Statistics Department"
  classifier := ⟨"2.8", "Indicators / Foreign trade"⟩
  prepared_by := ⟨"J. Doe", "doe at example dot org"⟩
  data := [("country code", "Russian Federation", "percent", "year total", 2014, mkRat 3 2)]

/-- Decidable equality for parse outcomes. -/
instance exceptDSDecEq : DecidableEq (Except DS DS) := fun a b =>
  match a, b with
  | .error e, .error f =>
    if h : e = f then .isTrue (by rw [h]) else .isFalse (fun hh => h (by cases hh; rfl))
  | .error _, .ok _ => .isFalse (fun hh => Except.noConfusion hh)
  | .ok _, .error _ => .isFalse (fun hh => Except.noConfusion hh)
  | .ok x, .ok y =>
    if h : x = y then .isTrue (by rw [h]) else .isFalse (fun hh => h (by cases hh; rfl))

/-! ### Support lemmas for the classifier tree -/

theorem insertSorted_perm (a : List String) (l : List (List String)) :
    (insertSorted a l).Perm (a :: l) := by
  induction l with
  | nil => exact List.Perm.refl _
  | cons b bs ih =>
    unfold insertSorted
    by_cases h : lexLe a b = true
    · simp [h]
    · simp only [h, if_false]
      exact ((ih.cons b).trans (List.Perm.swap a b bs))

theorem sortLex_perm (l : List (List String)) : (sortLex l).Perm l := by
  induction l with
  | nil => exact List.Perm.refl _
  | cons a as ih => exact (insertSorted_perm a (sortLex as)).trans (ih.cons a)

theorem dedupKF_mem (x : List String) (l : List (List String)) :
    x ∈ dedupKF l ↔ x ∈ l := by
  induction l with
  | nil => simp [dedupKF]
  | cons a as ih =>
    simp only [dedupKF, List.mem_cons, List.mem_filter, ih, decide_eq_true_eq]
    by_cases h : x = a
    · simp [h]
    · simp [h]

theorem dedupKF_nodup (l : List (List String)) : (dedupKF l).Nodup := by
  induction l with
  | nil => simp [dedupKF]
  | cons a as ih =>
    refine List.Nodup.cons ?_ (ih.filter _)
    intro hmem
    rcases List.mem_filter.mp hmem with ⟨_, hne⟩
    simp at hne

theorem mem_prefixesOf (p l : List String) :
    p ∈ prefixesOf l ↔ ∃ i < l.length, p = l.take (i + 1) := by
  simp only [prefixesOf, List.mem_map, List.mem_range]
  constructor
  · rintro ⟨i, hi, rfl⟩; exact ⟨i, hi, rfl⟩
  · rintro ⟨i, hi, rfl⟩; exact ⟨i, hi, rfl⟩

theorem tupleHasPref_trans {p q l : List String}
    (hpq : tupleHasPref p q = true) (hql : tupleHasPref q l = true) :
    tupleHasPref p l = true := by
  simp only [tupleHasPref, Bool.and_eq_true, decide_eq_true_eq, beq_iff_eq] at *
  obtain ⟨hlen1, htake1⟩ := hpq
  obtain ⟨hlen2, htake2⟩ := hql
  refine ⟨hlen1.trans hlen2, ?_⟩
  have : l.take p.length = (l.take q.length).take p.length := by
    rw [List.take_take, Nat.min_eq_left hlen1]
  rw [this, htake2, htake1]

/-- The node tuples of the classifier output are exactly the sorted
deduplicated prefix collection. -/
theorem classificator_map_fst (rows : List (String × Int)) (iroot : Bool)
    (ml : Option Nat) :
    (getClassificator rows iroot ml).map Prod.fst =
      sortLex (dedupKF ((splitPaths rows iroot ml).flatMap (fun el => prefixesOf el.1))) := by
  simp only [getClassificator, List.map_map]
  exact List.map_id _

/-- C8.  For every input set of classifier path rows, the derived tree's
node set is exactly the set of non-empty prefixes of the trimmed segment
tuples (split on `/`, optionally dropping the leading root segment), with
no duplicate nodes. -/
theorem classificator_node_set (rows : List (String × Int)) (iroot : Bool) :
    ((getClassificator rows iroot none).map Prod.fst).Nodup ∧
    (∀ p : List String,
      p ∈ (getClassificator rows iroot none).map Prod.fst ↔
        ∃ el ∈ splitPaths rows iroot none, ∃ i < el.1.length, p = el.1.take (i + 1)) := by
  rw [classificator_map_fst]
  constructor
  · exact (sortLex_perm _).symm.nodup (dedupKF_nodup _)
  · intro p
    rw [(sortLex_perm _).mem_iff, dedupKF_mem, List.mem_flatMap]
    constructor
    · rintro ⟨el, hel, hp⟩
      exact ⟨el, hel, (mem_prefixesOf p el.1).mp hp⟩
    · rintro ⟨el, hel, hp⟩
      exact ⟨el, hel, (mem_prefixesOf p el.1).mpr hp⟩

/-- C9.  Every node's dataset-id list counts exactly the input rows whose
full segment tuple extends the node's tuple (cumulative containment), and
along any ancestor chain (one node's tuple a prefix of another's) the
counts are non-increasing. -/
theorem classificator_counts (rows : List (String × Int)) (iroot : Bool)
    (e : List String × List Int) (he : e ∈ getClassificator rows iroot none) :
    e.2.length =
      (splitPaths rows iroot none).countP (fun s => tupleHasPref e.1 s.1) ∧
    (∀ e' ∈ getClassificator rows iroot none, tupleHasPref e.1 e'.1 = true →
      e'.2.length ≤ e.2.length) := by
  simp only [getClassificator, List.mem_map] at he
  obtain ⟨t, _, rfl⟩ := he
  constructor
  · simp [List.countP_eq_length_filter]
  · intro e' he' hpref
    simp only [getClassificator, List.mem_map] at he'
    obtain ⟨t', _, rfl⟩ := he'
    simp only [List.length_map, ← List.countP_eq_length_filter]
    exact List.countP_mono_left (fun s _ hs => tupleHasPref_trans hpref hs)

/-- Witness for C9 at the worked example of the specification: paths
`A/B/C`, `A/B/D`, `A/E`, `F`, `F` with the root kept; the node `A` counts
3 datasets and dominates the count of its descendant `A/B`. -/
theorem classificator_counts_witness :
    (["A"], [1, 2, 3]).2.length =
      (splitPaths [("A/B/C", 1), ("A/B/D", 2), ("A/E", 3), ("F", 4), ("F", 5)] false none).countP
        (fun s => tupleHasPref (["A"], [1, 2, 3]).1 s.1) ∧
    (∀ e' ∈ getClassificator [("A/B/C", 1), ("A/B/D", 2), ("A/E", 3), ("F", 4), ("F", 5)] false none,
      tupleHasPref (["A"], [1, 2, 3]).1 e'.1 = true →
        e'.2.length ≤ (["A"], [1, 2, 3]).2.length) :=
  classificator_counts [("A/B/C", 1), ("A/B/D", 2), ("A/E", 3), ("F", 4), ("F", 5)] false
    (["A"], [1, 2, 3]) (by decide)

/-! ### Support lemmas for the orchestrator -/

theorem gatherLoop_no_stop {α : Type} (l : List α) (stop : Nat → Bool)
    (h : ∀ k, stop k = false) : gatherLoop l stop = l := by
  induction l generalizing stop with
  | nil => rfl
  | cons o rest ih => simp [gatherLoop, h 0, ih _ (fun k => h (k + 1))]

theorem gatherLoop_stop {α : Type} (l : List α) (stop : Nat → Bool) (k : Nat)
    (hk : stop k = true) (hkl : k < l.length) (hmin : ∀ j < k, stop j = false) :
    gatherLoop l stop = l.take (k + 1) := by
  induction l generalizing stop k with
  | nil => simp at hkl
  | cons o rest ih =>
    cases k with
    | zero => simp [gatherLoop, hk]
    | succ k' =>
      have h0 : stop 0 = false := hmin 0 (Nat.succ_pos _)
      simp only [gatherLoop, h0, if_false, List.take_succ_cons, List.cons.injEq, true_and]
      exact ih (fun j => stop (j + 1)) k' hk (Nat.lt_of_succ_lt_succ hkl)
        (fun j hj => hmin (j + 1) (Nat.succ_lt_succ hj))

/-- Number of callback invocations of one `processDoc` run: one per run when
a callback is attached (success or parse failure), else zero. -/
theorem processDoc_cb_len (r : Option XElem) (ds0 : DS) (hasCb : Bool) :
    (processDoc r ds0 hasCb).2.length = if hasCb then 1 else 0 := by
  cases r with
  | none => cases hasCb <;> simp [processDoc]
  | some root =>
    cases hpb : parseBody root ds0 <;> cases hasCb <;> simp [processDoc, hpb]

/-- Does a `get_one` job obtain a document to parse (snapshot loads, or a
link is present and — when a download is needed — the network succeeds)? -/
def getsDocument (descr : Descriptor) (overwrite lfj : Bool) (w : FetchWorld) :
    Bool :=
  (lfj && (w.snapshot.bind pyLoad).isSome) ||
  (descr.link.isSome &&
    (if ¬ w.xmlExists ∨ overwrite then w.netDoc.isSome else true))

/-! ### C1: the dispatch of `get_many` -/

/-- C1 (supporting theorem for the dispatch bug).  `get_many` builds one
8-field argument tuple per dataset, but `cluster.map(self.get_one, *args)`
zips those tuples: for a batch of 3 datasets it dispatches 8 calls — one
per tuple field — instead of 3, and the first call receives the three
dataset descriptors as its three positional arguments. -/
theorem getMany_dispatch_transposed :
    (argPrep [descr0, descr1, descr2] "auto" true true "auto" "auto" (some ())).length = 3 ∧
    (daskTasks (argPrep [descr0, descr1, descr2] "auto" true true "auto" "auto" (some ()))).length = 8 ∧
    (daskTasks (argPrep [descr0, descr1, descr2] "auto" true true "auto" "auto" (some ()))).getD 0 [] =
      [.fdescr descr0, .fdescr descr1, .fdescr descr2] := by
  decide

/-! ### C2: callback delivery of `get_one` -/

/-- C2 (counterexample).  A job with a callback attached whose download
fails (no snapshot, no pre-existing file, network error) returns `None`
and invokes the callback zero times — not exactly once. -/
theorem callback_zero_on_network_failure :
    getOneJob descr0 true true true ⟨none, false, none, none, now0⟩ = (none, 0) := by
  rfl

/-- C2 (amended).  The callback attached to a `get_one` job fires at most
once, and exactly once precisely when the job obtains a document (a
snapshot loads, or the link is present and the XML source is available);
jobs failing earlier — missing link or network failure — deliver no
callback at all. -/
theorem callback_at_most_once (descr : Descriptor) (ow lfj hasCb : Bool)
    (w : FetchWorld) :
    (getOneJob descr ow lfj hasCb w).2 =
      (if hasCb && getsDocument descr ow lfj w then 1 else 0) ∧
    (getOneJob descr ow lfj hasCb w).2 ≤ 1 := by
  have main : (getOneJob descr ow lfj hasCb w).2 =
      (if hasCb && getsDocument descr ow lfj w then 1 else 0) := by
    unfold getOneJob getsDocument
    obtain ⟨snap, xex, exdoc, net, nowv⟩ := w
    cases lfj <;> cases hs : snap.bind pyLoad <;> cases hlink : descr.link <;>
      cases xex <;> cases ow <;> cases net <;> cases hasCb <;>
      simp [hs, hlink, processDoc_cb_len]
  refine ⟨main, ?_⟩
  rw [main]
  by_cases h : (hasCb && getsDocument descr ow lfj w) = true <;> simp [h]

/-! ### C4: cancellation behaviour -/

/-- C4 (counterexample).  In a batch run with a callback supplied to
`get_many`, every prepared worker tuple carries `None` in the `on_dataset`
slot (field 6), so even a job that runs to completion — here job #1, whose
document parses successfully — delivers zero callback invocations, not
one. -/
theorem completed_job_no_callback :
    ((argPrep [descr0, descr1, descr2] "auto" true true "auto" "auto" (some ())).map
       (fun t => t.getD 6 ArgField.fnone) = [.fnone, .fnone, .fnone]) ∧
    ((getOneJob descr0 true true false ⟨none, false, none, some (some fullRoot), now0⟩).1.isSome
       = true) ∧
    ((getOneJob descr0 true true false ⟨none, false, none, some (some fullRoot), now0⟩).2 = 0) :=
  ⟨by decide, by rfl, by rfl⟩

/-- C4 (amended).  Cancellation is observed only by the orchestrator's
result-collection loop, never polled inside the worker pipeline: (i) every
worker argument tuple of a batch run carries no callback, so no worker-side
callback fires for any job, completed or not; (ii) once the flag is first
seen set (after the `(k+1)`-th completed result), the loop cancels the
remaining futures and returns exactly the results completed so far;
(iii) with the flag never set, all completed results are returned. -/
theorem cancellation_observed_in_gather_only :
    (∀ (datasets : List Descriptor) (xmlfilename : String) (ow dx : Bool)
        (s2j lfj : String) (onDs : Option Unit),
      ∀ t ∈ argPrep datasets xmlfilename ow dx s2j lfj onDs,
        t.getD 6 ArgField.fnone = ArgField.fnone) ∧
    (∀ (outcomes : List (Option JobValue)) (stop : Nat → Bool) (k : Nat),
      stop k = true → k < outcomes.length → (∀ j < k, stop j = false) →
      gatherLoop outcomes stop = outcomes.take (k + 1)) ∧
    (∀ (outcomes : List (Option JobValue)) (stop : Nat → Bool),
      (∀ k, stop k = false) → gatherLoop outcomes stop = outcomes) := by
  refine ⟨?_, ?_, ?_⟩
  · intro datasets xmlfilename ow dx s2j lfj onDs t ht
    simp only [argPrep, List.mem_map] at ht
    obtain ⟨ds, _, rfl⟩ := ht
    rfl
  · intro outcomes stop k hk hkl hmin
    exact gatherLoop_stop outcomes stop k hk hkl hmin
  · intro outcomes stop h
    exact gatherLoop_no_stop outcomes stop h

/-- Witness for the amended C4: a concrete batch tuple carries no callback,
and a gather over two completed outcomes with the flag set at the first
check returns only the first outcome. -/
theorem cancellation_observed_in_gather_only_witness :
    (argTuple descr0 "auto" true true "auto" "auto").getD 6 ArgField.fnone
      = ArgField.fnone ∧
    gatherLoop [some (JobValue.parsed dsFull), none] (fun _ => true)
      = [some (JobValue.parsed dsFull)] := by
  obtain ⟨h1, h2, _⟩ := cancellation_observed_in_gather_only
  refine ⟨h1 [descr0] "auto" true true "auto" "auto" (some ()) _ (by simp [argPrep]), ?_⟩
  have := h2 [some (JobValue.parsed dsFull), none] (fun _ => true) 0 rfl (by decide)
    (fun j hj => absurd hj (Nat.not_lt_zero j))
  simpa using this

/-! ### C10: the stop-flag reset of `get_many` -/

/-- C10.  `get_many` executes `set_stopped(False)` before dispatching, so
(i) the run's results do not depend on the stop-flag value the run started
with, and (ii) with no external cancellation during the run, every
completed result is collected even if cancellation had been requested
before the run started. -/
theorem getmany_resets_stop_flag (b : Bool) (datasets : List Descriptor)
    (xmlfilename : String) (ow dx : Bool) (s2j lfj : String)
    (onDs : Option Unit) (outcome : List ArgField → Option JobValue)
    (order : List Nat) :
    (∀ extStop, getManyRun b datasets xmlfilename ow dx s2j lfj onDs outcome order extStop =
      getManyRun false datasets xmlfilename ow dx s2j lfj onDs outcome order extStop) ∧
    (getManyRun b datasets xmlfilename ow dx s2j lfj onDs outcome order (fun _ => false) =
      order.filterMap
        (fun i => ((daskTasks (argPrep datasets xmlfilename ow dx s2j lfj onDs)).map outcome).get? i)) := by
  constructor
  · intro extStop; rfl
  · unfold getManyRun
    exact gatherLoop_no_stop _ _ (fun k => rfl)

/-! ### Support lemmas for the parse pipeline -/

theorem exceptBind_ok {ε α β : Type} (a : α) (f : α → Except ε β) :
    (Except.ok a >>= f) = f a := rfl

theorem exceptBind_error {ε α β : Type} (e : ε) (f : α → Except ε β) :
    ((Except.error e : Except ε α) >>= f) = .error e := rfl

theorem bindChain_ok {ε α β : Type} {m : Except ε α} {f : α → Except ε β} {b : β}
    (h : (m >>= f) = .ok b) : ∃ a, m = .ok a ∧ f a = .ok b := by
  cases m with
  | error e => rw [exceptBind_error] at h; exact Except.noConfusion h
  | ok a => exact ⟨a, rfl, h⟩

theorem stepPrepared_ok {root : XElem} {d d' : DS}
    (h : stepPrepared root d = .ok d') :
    ∃ t p, getText (root.find "message:Header") ["message:Prepared"] "1900-01-01" = .ok t ∧
      fromIso t = some p ∧ d' = { d with prepared := dtSubHours p 3 } := by
  unfold stepPrepared at h
  cases ht : getText (root.find "message:Header") ["message:Prepared"] "1900-01-01" with
  | error e => simp only [ht] at h; exact Except.noConfusion h
  | ok t =>
    simp only [ht] at h
    cases hp : fromIso t with
    | none => simp only [hp] at h; exact Except.noConfusion h
    | some p => simp only [hp, Except.ok.injEq] at h; exact ⟨t, p, rfl, hp, h.symm⟩

theorem stepId_pres {root : XElem} {d d' : DS} (h : stepId root d = .ok d') :
    d'.prepared = d.prepared ∧ d'.updated = d.updated ∧ d'.periodicity = d.periodicity := by
  unfold stepId at h
  cases ht : getText (root.find "message:Header") ["message:DataSetID"] "" with
  | error e => simp only [ht] at h; exact Except.noConfusion h
  | ok t => simp only [ht, Except.ok.injEq] at h; subst h; exact ⟨rfl, rfl, rfl⟩

theorem stepAgencyId_pres {root : XElem} {d d' : DS} (h : stepAgencyId root d = .ok d') :
    d'.prepared = d.prepared ∧ d'.updated = d.updated ∧ d'.periodicity = d.periodicity := by
  unfold stepAgencyId at h
  cases ht : getText (root.find "message:Header") ["message:DataSetAgency"] "" with
  | error e => simp only [ht] at h; exact Except.noConfusion h
  | ok t => simp only [ht, Except.ok.injEq] at h; subst h; exact ⟨rfl, rfl, rfl⟩

theorem stepCodes_pres {root : XElem} {d d' : DS} (h : stepCodes root d = .ok d') :
    d'.prepared = d.prepared ∧ d'.updated = d.updated ∧ d'.periodicity = d.periodicity := by
  unfold stepCodes at h
  cases hc : getCodes root with
  | error e => simp only [hc] at h; exact Except.noConfusion h
  | ok c => simp only [hc, Except.ok.injEq] at h; subst h; exact ⟨rfl, rfl, rfl⟩

theorem stepDescCheck_pres {root : XElem} {d d' : DS} (h : stepDescCheck root d = .ok d') :
    d' = d := by
  unfold stepDescCheck at h
  cases hf : root.find "message:Description" with
  | none => simp only [hf] at h; exact Except.noConfusion h
  | some x => simp only [hf, Except.ok.injEq] at h; exact h.symm

theorem stepNameUnitPeriod_pres {root : XElem} {d d' : DS}
    (h : stepNameUnitPeriod root d = .ok d') :
    d'.prepared = d.prepared ∧ d'.updated = d.updated ∧
      d'.periodicity.next = d.periodicity.next := by
  unfold stepNameUnitPeriod at h
  simp only [Except.ok.injEq] at h
  subst h
  exact ⟨rfl, rfl, rfl⟩

theorem stepNext_ok {root : XElem} {d d' : DS} (h : stepNext root d = .ok d') :
    ∃ r, strptimeDmY (getAttr (descIndicator root) "next-release"
        ["message:Periodicities", "message:Periodicity"] "01.01.1900") = some r ∧
      d'.periodicity.next = dtSubHours r 3 ∧
      d'.prepared = d.prepared ∧ d'.updated = d.updated := by
  unfold stepNext at h
  cases hp : strptimeDmY (getAttr (descIndicator root) "next-release"
      ["message:Periodicities", "message:Periodicity"] "01.01.1900") with
  | none => simp only [hp] at h; exact Except.noConfusion h
  | some r => simp only [hp, Except.ok.injEq] at h; subst h; exact ⟨r, rfl, rfl, rfl, rfl⟩

theorem stepRange_pres {root : XElem} {d d' : DS} (h : stepRange root d = .ok d') :
    d'.prepared = d.prepared ∧ d'.updated = d.updated ∧ d'.periodicity = d.periodicity := by
  unfold stepRange at h
  cases ha : pyInt (getAttr (descIndicator root) "start" ["message:DataRange"] "0") with
  | none => simp only [ha] at h; exact Except.noConfusion h
  | some a =>
    cases hb : pyInt (getAttr (descIndicator root) "end" ["message:DataRange"] "0") with
    | none => simp only [ha, hb] at h; exact Except.noConfusion h
    | some b => simp only [ha, hb, Except.ok.injEq] at h; subst h; exact ⟨rfl, rfl, rfl⟩

theorem stepUpdated_ok {root : XElem} {d d' : DS} (h : stepUpdated root d = .ok d') :
    ∃ q, fromIso (getAttr (descIndicator root) "value" ["message:LastUpdate"] "1900-01-01") = some q ∧
      d'.updated = dtSubHours q 3 ∧
      d'.prepared = d.prepared ∧ d'.periodicity = d.periodicity := by
  unfold stepUpdated at h
  cases hq : fromIso (getAttr (descIndicator root) "value" ["message:LastUpdate"] "1900-01-01") with
  | none => simp only [hq] at h; exact Except.noConfusion h
  | some q => simp only [hq, Except.ok.injEq] at h; subst h; exact ⟨q, rfl, rfl, rfl, rfl⟩

theorem stepMethodAgency_pres {root : XElem} {d d' : DS}
    (h : stepMethodAgency root d = .ok d') :
    d'.prepared = d.prepared ∧ d'.updated = d.updated ∧ d'.periodicity = d.periodicity := by
  unfold stepMethodAgency at h
  simp only [Except.ok.injEq] at h
  subst h
  exact ⟨rfl, rfl, rfl⟩

theorem stepClassifier_pres {root : XElem} {d d' : DS}
    (h : stepClassifier root d = .ok d') :
    d'.prepared = d.prepared ∧ d'.updated = d.updated ∧ d'.periodicity = d.periodicity := by
  unfold stepClassifier at h
  cases hp : getText (descIndicator root)
      ["message:Allocations", "message:Allocation", "message:Name"] "" with
  | error e => simp only [hp] at h; exact Except.noConfusion h
  | ok p => simp only [hp, Except.ok.injEq] at h; subst h; exact ⟨rfl, rfl, rfl⟩

theorem stepPrepBy_pres {root : XElem} {d d' : DS}
    (h : stepPrepBy root d = .ok d') :
    d'.prepared = d.prepared ∧ d'.updated = d.updated ∧ d'.periodicity = d.periodicity := by
  unfold stepPrepBy at h
  cases hn : getText (descIndicator root) ["message:Responsible", "message:Name"] "" with
  | error e => simp only [hn] at h; exact Except.noConfusion h
  | ok nm =>
    cases hc : getText (descIndicator root) ["message:Responsible", "message:Contacts"] "" with
    | error e => simp only [hn, hc] at h; exact Except.noConfusion h
    | ok ct => simp only [hn, hc, Except.ok.injEq] at h; subst h; exact ⟨rfl, rfl, rfl⟩

theorem stepData_pres {root : XElem} {d d' : DS} (h : stepData root d = .ok d') :
    d'.prepared = d.prepared ∧ d'.updated = d.updated ∧ d'.periodicity = d.periodicity := by
  unfold stepData at h
  simp only [Except.ok.injEq] at h
  subst h
  exact ⟨rfl, rfl, rfl⟩

/-! ### C7: the fixed 3-hour timestamp offset -/

/-- C7.  For every dataset document whose parse succeeds, each canonical
timestamp (`prepared`, `updated`, `periodicity.next`) equals the timestamp
read from the document (via the corresponding text / attribute read and
format parse) minus exactly 3 hours. -/
theorem timestamps_shifted_three_hours (root : XElem) (ds0 ds : DS)
    (h : parseBody root ds0 = .ok ds) :
    (∃ t p, getText (root.find "message:Header") ["message:Prepared"] "1900-01-01" = .ok t ∧
      fromIso t = some p ∧ ds.prepared = dtSubHours p 3) ∧
    (∃ q, fromIso (getAttr (descIndicator root) "value" ["message:LastUpdate"] "1900-01-01") = some q ∧
      ds.updated = dtSubHours q 3) ∧
    (∃ r, strptimeDmY (getAttr (descIndicator root) "next-release"
        ["message:Periodicities", "message:Periodicity"] "01.01.1900") = some r ∧
      ds.periodicity.next = dtSubHours r 3) := by
  unfold parseBody at h
  obtain ⟨dDesc, hPreDesc, hPost⟩ := bindChain_ok h
  obtain ⟨dPre, hPre, hDesc⟩ := bindChain_ok hPreDesc
  unfold preDescPhase at hPre
  obtain ⟨d3, h123, h4⟩ := bindChain_ok hPre
  obtain ⟨d2, h12, h3⟩ := bindChain_ok h123
  obtain ⟨d1, h1, h2⟩ := bindChain_ok h12
  unfold postDescPhase at hPost
  obtain ⟨d12, hx1, h13⟩ := bindChain_ok hPost
  obtain ⟨d11, hx2, h12'⟩ := bindChain_ok hx1
  obtain ⟨d10, hx3, h11⟩ := bindChain_ok hx2
  obtain ⟨d9, hx4, h10⟩ := bindChain_ok hx3
  obtain ⟨d8, hx5, h9⟩ := bindChain_ok hx4
  obtain ⟨d7, hx6, h8⟩ := bindChain_ok hx5
  obtain ⟨d6, h6, h7⟩ := bindChain_ok hx6
  obtain ⟨t, p, hgt, hfi, hd1⟩ := stepPrepared_ok h1
  obtain ⟨p2, p2u, p2p⟩ := stepId_pres h2
  obtain ⟨p3, p3u, p3p⟩ := stepAgencyId_pres h3
  obtain ⟨p4, p4u, p4p⟩ := stepCodes_pres h4
  have hdd := stepDescCheck_pres hDesc
  obtain ⟨p6, p6u, p6n⟩ := stepNameUnitPeriod_pres h6
  obtain ⟨r, hr, hrn, p7, p7u⟩ := stepNext_ok h7
  obtain ⟨p8, p8u, p8p⟩ := stepRange_pres h8
  obtain ⟨q, hq, hqu, p9, p9p⟩ := stepUpdated_ok h9
  obtain ⟨p10, p10u, p10p⟩ := stepMethodAgency_pres h10
  obtain ⟨p11, p11u, p11p⟩ := stepClassifier_pres h11
  obtain ⟨p12, p12u, p12p⟩ := stepPrepBy_pres h12'
  obtain ⟨p13, p13u, p13p⟩ := stepData_pres h13
  refine ⟨⟨t, p, hgt, hfi, ?_⟩, ⟨q, hq, ?_⟩, ⟨r, hr, ?_⟩⟩
  · rw [p13, p12, p11, p10, p9, p8, p7, p6, hdd, p4, p3, p2, hd1]
  · rw [p13u, p12u, p11u, p10u, hqu]
  · rw [p13p, p12p, p11p, p10p, p9p, p8p, hrn]

/-- Witness for C7: the full concrete document parses successfully and each
canonical timestamp is the document value minus 3 hours. -/
theorem timestamps_shifted_three_hours_witness :
    (∃ t p, getText (fullRoot.find "message:Header") ["message:Prepared"] "1900-01-01" = .ok t ∧
      fromIso t = some p ∧ dsFull.prepared = dtSubHours p 3) ∧
    (∃ q, fromIso (getAttr (descIndicator fullRoot) "value" ["message:LastUpdate"] "1900-01-01") = some q ∧
      dsFull.updated = dtSubHours q 3) ∧
    (∃ r, strptimeDmY (getAttr (descIndicator fullRoot) "next-release"
        ["message:Periodicities", "message:Periodicity"] "01.01.1900") = some r ∧
      dsFull.periodicity.next = dtSubHours r 3) :=
  timestamps_shifted_three_hours fullRoot
    (initDS "6804027" "Personal transfers dataset" now0) dsFull (by decide)

/-! ### C3: missing Header / Description blocks -/

/-- C3 (counterexample).  A dataset document lacking the `message:Header`
block does not abort: the parse runs to completion (header fields fall
back to defaults) and `get_one` returns a dataset record rather than
`None`. -/
theorem parse_succeeds_without_header :
    noHeaderRoot.find "message:Header" = none ∧
    (processDoc (some noHeaderRoot)
      (initDS "6804027" "Personal transfers dataset" now0) true).1.isSome = true := by
  exact ⟨rfl, rfl⟩

/-- C3 (amended).  Absence of the mandatory `message:Description` block is
unrecoverable: the dataset parse aborts, `get_one` returns `None`, and the
partially extracted record — everything accumulated before the abort, i.e.
the full pre-Description phase state (header fields and code lists) when
that phase succeeded — is still delivered to the callback. -/
theorem parse_aborts_without_description (root : XElem) (ds0 : DS)
    (h : root.find "message:Description" = none) :
    ∃ p, processDoc (some root) ds0 true = (none, [p]) ∧
      (preDescPhase root ds0 = .error p ∨ preDescPhase root ds0 = .ok p) := by
  cases hpre : preDescPhase root ds0 with
  | error e =>
    refine ⟨e, ?_, Or.inl rfl⟩
    unfold processDoc parseBody
    simp only [hpre, exceptBind_error, if_true]
  | ok d =>
    refine ⟨d, ?_, Or.inr rfl⟩
    unfold processDoc parseBody stepDescCheck
    simp only [hpre, exceptBind_ok, h, exceptBind_error, if_true]

/-- Witness for the amended C3: the concrete document with a header but no
`message:Description` block aborts, delivering the partial record with the
already-extracted header metadata. -/
theorem parse_aborts_without_description_witness :
    ∃ p, processDoc (some noDescRoot)
        (initDS "6804027" "Personal transfers dataset" now0) true = (none, [p]) ∧
      (preDescPhase noDescRoot (initDS "6804027" "Personal transfers dataset" now0) = .error p ∨
       preDescPhase noDescRoot (initDS "6804027" "Personal transfers dataset" now0) = .ok p) :=
  parse_aborts_without_description noDescRoot
    (initDS "6804027" "Personal transfers dataset" now0) rfl

/-! ### C6: observation leniency of `_get_data` -/

/-- With no row limit (`max_row = -1`, the value `get_one` passes), the
inner key loop emits exactly one row per `generic:Value` key, each carrying
the series year and value. -/
theorem seriesKeyRows_noLimit (keyItems : List XElem)
    (codes : List (String × CodeEntry)) (ei per : String) (tim : Int)
    (val : Rat) (n : Nat) :
    (seriesKeyRows keyItems codes ei per tim val (-1) n).1.length = keyItems.length ∧
    ∀ r ∈ (seriesKeyRows keyItems codes ei per tim val (-1) n).1,
      r.2.2.2.2.1 = tim ∧ r.2.2.2.2.2 = val := by
  induction keyItems generalizing n with
  | nil => simp [seriesKeyRows]
  | cons k rest ih =>
    unfold seriesKeyRows
    have hcond : ¬ (0 < (-1 : Int) ∧ (-1 : Int) < ((n + 1 : Nat) : Int)) :=
      fun hc => absurd hc.1 (by decide)
    rw [if_neg hcond]
    simp only [List.length_cons, List.mem_cons]
    obtain ⟨ihl, ihm⟩ := ih (n + 1)
    refine ⟨by rw [ihl], ?_⟩
    rintro r (rfl | hr)
    · exact ⟨rfl, rfl⟩
    · exact ihm r hr

/-- A series fixture with an unparsable year text and the value text
`"n/a"`. -/
def seriesBad : XElem :=
  .mk "generic:Series" [] none
    [.mk "generic:SeriesKey" [] none
      [.mk "generic:Value" [("concept", "X"), ("value", "1")] none []],
     .mk "generic:Obs" [] none
      [.mk "generic:Time" [] (some "yearX") [],
       .mk "generic:ObsValue" [("value", "n/a")] none []]]

/-- C6.  Observation leniency: a missing (`generic:Obs/generic:Time` node
absent) or unparsable year degrades to `0`; a missing
(`generic:Obs/generic:ObsValue` node absent) or unparsable value degrades
to `0.0`; in all cases the series still emits its rows — the emission count
depends only on the series key structure, never on the year/value fields —
and each emitted row carries the (possibly degraded) year and value.
Value text `"1,5"` (decimal comma) parses to `3/2`, `"1 234,5"` (embedded
whitespace) to `2469/2`; `"n/a"` fails the float parse (and hence degrades
to `0.0`) without aborting anything. -/
theorem observation_leniency (item : XElem) (codes : List (String × CodeEntry))
    (n : Nat) :
    (chase (some item) ["generic:Obs", "generic:Time"] = none → seriesYear item = 0) ∧
    (getText (some item) ["generic:Obs", "generic:Time"] "0" = .error () →
      seriesYear item = 0) ∧
    (∀ t, getText (some item) ["generic:Obs", "generic:Time"] "0" = .ok t →
      pyInt t = none → seriesYear item = 0) ∧
    (chase (some item) ["generic:Obs", "generic:ObsValue"] = none → seriesVal item = 0) ∧
    (pyFloat (commaDotNoSpace
        (getAttr (some item) "value" ["generic:Obs", "generic:ObsValue"] "0.0")) = none →
      seriesVal item = 0) ∧
    ((seriesRows item codes (-1) n).1.length =
      (match item.find "generic:SeriesKey" with
       | none => 1
       | some sk => (sk.iterfind "generic:Value").length)) ∧
    (∀ r ∈ (seriesRows item codes (-1) n).1,
      r.2.2.2.2.1 = seriesYear item ∧ r.2.2.2.2.2 = seriesVal item) ∧
    pyFloat (commaDotNoSpace "1,5") = some (mkRat 3 2) ∧
    pyFloat (commaDotNoSpace "1 234,5") = some (mkRat 12345 10) ∧
    pyFloat (commaDotNoSpace "n/a") = none := by
  refine ⟨?_, ?_, ?_, ?_, ?_, ?_, ?_, by decide, by decide, by decide⟩
  · intro h
    have hgt : getText (some item) ["generic:Obs", "generic:Time"] "0" = .ok "0" := by
      unfold getText; rw [h]
    simp only [seriesYear, hgt]
    decide
  · intro h; simp [seriesYear, h]
  · intro t ht hp; simp [seriesYear, ht, hp]
  · intro h
    have hga : getAttr (some item) "value" ["generic:Obs", "generic:ObsValue"] "0.0" = "0.0" := by
      unfold getAttr; rw [h]
    simp only [seriesVal, hga]
    decide
  · intro h; simp [seriesVal, h]
  · unfold seriesRows
    cases hsk : item.find "generic:SeriesKey" with
    | none => rfl
    | some sk =>
      simp only []
      exact (seriesKeyRows_noLimit (sk.iterfind "generic:Value") codes
        (seriesPerEi item).2 (seriesPerEi item).1 (seriesYear item) (seriesVal item) n).1
  · unfold seriesRows
    cases hsk : item.find "generic:SeriesKey" with
    | none =>
      intro r hr
      simp only [List.mem_singleton] at hr
      subst hr
      exact ⟨rfl, rfl⟩
    | some sk =>
      exact (seriesKeyRows_noLimit (sk.iterfind "generic:Value") codes
        (seriesPerEi item).2 (seriesPerEi item).1 (seriesYear item) (seriesVal item) n).2

/-- Witness for C6 at a concrete series: year text `"yearX"` and value text
`"n/a"` degrade to `0` / `0.0` while the observation is still emitted. -/
theorem observation_leniency_witness :
    seriesYear seriesBad = 0 ∧ seriesVal seriesBad = 0 ∧
    (seriesRows seriesBad [] (-1) 0).1.length = 1 := by
  obtain ⟨_, _, hy, _, hv, hl, _, _, _⟩ := observation_leniency seriesBad [] 0
  exact ⟨hy "yearX" (by rfl) (by decide), hv (by decide), hl.trans (by rfl)⟩

/-! ### C5: snapshot save / reload round trip -/

/-- One dumped observation row reloads as the corresponding list. -/
theorem rowRT (r : Row) :
    pyLoad (pyDump (encodeRow r)) = some (encodeRowLoaded r) := rfl

/-- A dumped list of observation rows reloads as the list of lists. -/
theorem rowsRT (l : List Row) :
    pyLoadList (pyDumpList (l.map encodeRow)) = some (l.map encodeRowLoaded) := by
  induction l with
  | nil => rfl
  | cons r rest ih =>
    simp [List.map_cons, pyDumpList, pyLoadList, rowRT r, ih]

/-- A dumped code-list value pair reloads as a two-element list. -/
theorem pairRT (v : String × String) :
    pyLoad (pyDump (.ptuple [.pstr v.1, .pstr v.2])) =
      some (.plist [.pstr v.1, .pstr v.2]) := rfl

/-- Dumped code-list value pairs reload as lists. -/
theorem pairsRT (l : List (String × String)) :
    pyLoadList (pyDumpList (l.map (fun v => .ptuple [.pstr v.1, .pstr v.2]))) =
      some (l.map (fun v => .plist [.pstr v.1, .pstr v.2])) := by
  induction l with
  | nil => rfl
  | cons v rest ih =>
    simp [List.map_cons, pyDumpList, pyLoadList, pairRT v, ih]

/-- One dumped code-list entry value reloads with its pairs as lists. -/
theorem codeRT (c : String × CodeEntry) :
    pyLoad (pyDump (encodeCode c).2) = some (encodeCodeLoaded c).2 := by
  simp only [encodeCode, encodeCodeLoaded, pyDump, pyDumpKVs, pyDumpList, pyLoad,
    pyLoadKVs, pyLoadList, pairsRT, jsonHookLoop, Option.map_some]
  simp [jsonHookLoop]

/-- The dumped code table reloads entrywise. -/
theorem codesRT (l : List (String × CodeEntry)) :
    pyLoadKVs (pyDumpKVs (l.map encodeCode)) = some (l.map encodeCodeLoaded) := by
  induction l with
  | nil => rfl
  | cons c rest ih =>
    have hc : pyLoad (pyDump (encodeCode c).2) = some (encodeCodeLoaded c).2 := codeRT c
    simp only [encodeCode, encodeCodeLoaded] at hc
    simp [List.map_cons, pyDumpKVs, pyLoadKVs, encodeCode, encodeCodeLoaded, hc, ih]

/-- The hook passes an object through unchanged when none of its keys is a
trigger key. -/
theorem jsonHookLoop_no_trigger (kvs : List (String × PyValue))
    (h : ∀ kv ∈ kvs, kv.1 ≠ "prepared" ∧ kv.1 ≠ "next" ∧ kv.1 ≠ "updated") :
    jsonHookLoop kvs = some kvs := by
  induction kvs with
  | nil => rfl
  | cons kv rest ih =>
    obtain ⟨h1, h2, h3⟩ := h kv (List.mem_cons_self kv rest)
    have hrest := ih (fun x hx => h x (List.mem_cons_of_mem kv hx))
    unfold jsonHookLoop
    rw [if_neg (by simp [h1, h2, h3]), hrest]
    rfl

/-- A datetime whose `str()` form reparses to itself under the snapshot
hook's `strptime` format (equivalently: whole-second, calendar-valid,
4-digit year). -/
def cleanDT (t : PDateTime) : Prop := strptimeYmdHMS (dtStr t) = some t

/-- C5 (amended).  For every dataset record whose three datetime fields are
clean (whole-second, reparseable) and whose code-group names do not collide
with the hook's reserved keys (`prepared` / `next` / `updated`), saving the
record to a JSON snapshot and reloading it yields the record with every
tuple restored as a list (`data_range`, the code-list value pairs and each
observation row) and all other fields equal, datetimes included. -/
theorem snapshot_roundtrip (ds : DS) (hp : cleanDT ds.prepared)
    (hu : cleanDT ds.updated) (hn : cleanDT ds.periodicity.next)
    (hcodes : ∀ c ∈ ds.codes, c.1 ≠ "prepared" ∧ c.1 ≠ "next" ∧ c.1 ≠ "updated") :
    pyLoad (pyDump (encodeDS ds)) = some (encodeDSLoaded ds) := by
  unfold cleanDT at hp hu hn
  have hcd : jsonHookLoop (ds.codes.map encodeCodeLoaded) =
      some (ds.codes.map encodeCodeLoaded) := by
    refine jsonHookLoop_no_trigger _ ?_
    intro kv hkv
    rcases List.mem_map.mp hkv with ⟨c, hc, rfl⟩
    exact hcodes c hc
  simp only [encodeDS, encodeDSLoaded, pyDump, pyDumpKVs, pyDumpList, pyLoad,
    pyLoadKVs, pyLoadList, codesRT, rowsRT, hcd]
  simp [jsonHookLoop, hp, hu, hn]

/-- Witness for the amended C5 at the concrete parsed record. -/
theorem snapshot_roundtrip_witness :
    pyLoad (pyDump (encodeDS dsFull)) = some (encodeDSLoaded dsFull) :=
  snapshot_roundtrip dsFull (by unfold cleanDT; decide) (by unfold cleanDT; decide)
    (by unfold cleanDT; decide) (by decide)

/-- C5 (counterexample).  The reloaded snapshot of the concrete parsed
record is NOT equal to the original record value: the `data_range` tuple
(and every observation tuple) comes back as a list, a difference beyond the
claim's sole tolerated deviation (sub-second precision).  -/
theorem roundtrip_not_identity :
    parseBody fullRoot (initDS "6804027" "Personal transfers dataset" now0) = .ok dsFull ∧
    pyLoad (pyDump (encodeDS dsFull)) = some (encodeDSLoaded dsFull) ∧
    encodeDSLoaded dsFull ≠ encodeDS dsFull := by
  refine ⟨by decide, by rfl, ?_⟩
  simp [encodeDS, encodeDSLoaded, dsFull]

end Russtat
